import Mathlib

/-!
Shallow embedding of the DLWP forecast-verification engine:
`DLWP/model/verify.py` (error metrics and verification builders) and the
`insolation` / `day_of_year` functions of `DLWP/util.py`.

Conventions of the embedding:
* numpy float arrays are modelled as lists of `Option ℝ`; `none` plays the
  role of a not-a-number entry (NaN), `some x` an ordinary value;
* a numpy operation that raises is modelled by an `Except String` result
  (the error strings paraphrase the exception messages of the source);
* `np.nanmean` over a fully-NaN (or empty) slice yields NaN, hence `none`;
* 1-D and 2-D arrays are the ranks exercised by the specification; numpy
  broadcasting between them is modelled explicitly (`bsub1`, `bsub2`).
-/

namespace DLWP

noncomputable section

/-- A possibly-NaN double: `none` is NaN. -/
abbrev NDat := Option ℝ

/-- NaN-propagating subtraction (`a - b` in numpy). -/
def nsub : NDat → NDat → NDat
  | some a, some b => some (a - b)
  | _, _ => none

/-- NaN-propagating square (`x ** 2.` in numpy). -/
def nsq : NDat → NDat
  | some a => some (a ^ 2)
  | none => none

/-- NaN-propagating absolute value (`np.abs`). -/
def nabs : NDat → NDat
  | some a => some |a|
  | none => none

/-- `np.nanmean` over a 1-D slice: the mean of the non-NaN entries, NaN if
there are none. -/
def nanmean (l : List NDat) : NDat :=
  let v := l.filterMap id
  if v.length = 0 then none else some (v.sum / v.length)

/-- One reduction of `forecast_error`: the method-dispatch of
`verify.py` lines 35-40 / 45-50 applied to a 1-D slice of differences
(`mse` = mean of squares, `mae` = mean of absolute values,
`rmse` = square root of the mean of squares). -/
def rowReduce (method : String) (diffs : List NDat) : NDat :=
  if method = "mse" then nanmean (diffs.map nsq)
  else if method = "mae" then nanmean (diffs.map nabs)
  else (nanmean (diffs.map nsq)).map Real.sqrt

/-- numpy broadcasting of `a - b` for two 1-D arrays: equal lengths are
subtracted elementwise, a length-1 operand is stretched, anything else is
a broadcast error (`none`). -/
def bsub1 (a b : List NDat) : Option (List NDat) :=
  if a.length = b.length then some (List.zipWith nsub a b)
  else if a.length = 1 then some (b.map (fun y => nsub (a.headD none) y))
  else if b.length = 1 then some (a.map (fun x => nsub x (b.headD none)))
  else none

/-- One numpy axis is broadcast-compatible when the sizes agree or one is 1. -/
def dimOK (a b : ℕ) : Bool := a == b || a == 1 || b == 1

/-- Index into a broadcast operand: a size-1 axis always reads position 0. -/
def bidx (n i : ℕ) : ℕ := if n = 1 then 0 else i

/-- Element `(i, j)` of a 2-D operand of shape `(r, c)` under broadcasting. -/
def bget2 (A : List (List NDat)) (r c i j : ℕ) : NDat :=
  (A.getD (bidx r i) []).getD (bidx c j) none

/-- numpy broadcasting of `A - B` for two 2-D (rectangular) arrays. -/
def bsub2 (A B : List (List NDat)) : Option (List (List NDat)) :=
  let rA := A.length
  let rB := B.length
  let cA := (A.headD []).length
  let cB := (B.headD []).length
  if dimOK rA rB && dimOK cA cB then
    some ((List.range (max rA rB)).map fun i =>
      (List.range (max cA cB)).map fun j =>
        nsub (bget2 A rA cA i j) (bget2 B rB cB i j))
  else none

/-- A numpy array of rank 1 or 2 over possibly-NaN doubles. -/
inductive NArr where
  | one (d : List NDat)
  | two (d : List (List NDat))

/-- The guard of `verify.py` line 28: accepted reduction method strings. -/
def methodOK (method : String) : Bool :=
  method == "mse" || method == "mae" || method == "rmse"

/-- Same-rank branch of `forecast_error` (lines 31-40) for two 2-D arrays:
`valid - forecast` under broadcasting, then the default
`axis = tuple(range(1, rank)) = (1,)` reduction of each row. -/
def feSame2 (forecast valid : List (List NDat)) (method : String) :
    Except String (List NDat) :=
  match bsub2 valid forecast with
  | some D => .ok (D.map (rowReduce method))
  | none => .error "operands could not be broadcast together"

/-- Same-rank branch for two 1-D arrays: the default axis tuple
`tuple(range(1, 1))` is empty, so `np.nanmean(x, axis=())` reduces nothing
and each element is its own (size-1) reduction. -/
def elemReduce (method : String) (x : NDat) : NDat :=
  if method = "mse" then nsq x
  else if method = "mae" then nabs x
  else (nsq x).map Real.sqrt

/-- The Python slice `l[:stop]` of a 1-D array for an arbitrary integer
`stop`: a nonnegative stop takes the first `stop` elements (clamped to the
length), a negative stop counts from the end (`len(l) + stop`), giving the
empty slice when that is still negative. -/
def pyslice (stop : ℤ) (l : List NDat) : List NDat :=
  if 0 ≤ stop then l.take stop.toNat
  else l.take ((l.length : ℤ) + stop).toNat

/-- Rank-mismatch branch of `forecast_error` (lines 41-51): for each lead
step `f`, compare `valid[f:]` with `forecast[f, :(n_val - f)]` and reduce
with `axis=None` (over everything). The slice stop `n_val - f` is a
Python int and is negative once `f` exceeds `n_val`, where it slices from
the end of the row. -/
def feShift (forecast : List (List NDat)) (valid : List NDat)
    (method : String) : Except String (List NDat) :=
  (List.range forecast.length).mapM fun f =>
    match bsub1 (valid.drop f)
        (pyslice ((valid.length : ℤ) - f) (forecast.getD f [])) with
    | some d => Except.ok (rowReduce method d)
    | none => Except.error "operands could not be broadcast together"

/-- `forecast_error(forecast, valid, method, axis=None)` of `verify.py`
lines 17-51, for the ranks the specification exercises. A 1-D forecast
against a 2-D valid hits `forecast[f, :...]` with too many indices and
raises, which the last case records. -/
def forecast_error (forecast valid : NArr) (method : String) :
    Except String (List NDat) :=
  if ¬ methodOK method then .error "method must be mse, rmse, or mae"
  else match forecast, valid with
    | .two F, .two V => feSame2 F V method
    | .two F, .one v => feShift F v method
    | .one F, .one v =>
        match bsub1 v F with
        | some d => .ok (d.map (elemReduce method))
        | none => .error "operands could not be broadcast together"
    | .one _, .two _ => .error "too many indices for array"

/-- `persistence_error(predictors, valid, n_fhour, method, axis=None)` of
`verify.py` lines 54-77: for each lead step `f`, compare `valid[f:]` with
`predictors[:(n_f - f)]` where `n_f = valid.shape[0]` (a Python slice
whose stop may go negative when `n_fhour` exceeds `n_f`). -/
def persistence_error (predictors valid : List NDat) (n_fhour : ℕ)
    (method : String) : Except String (List NDat) :=
  if ¬ methodOK method then .error "method must be mse, rmse, or mae"
  else (List.range n_fhour).mapM fun f =>
    match bsub1 (valid.drop f)
        (pyslice ((valid.length : ℤ) - f) predictors) with
    | some d => Except.ok (rowReduce method d)
    | none => Except.error "operands could not be broadcast together"

/-- `climo_error(valid, n_fhour, method, axis=None)` of `verify.py` lines
80-102: for each lead step `f`, reduce `valid[:(n_f - f)] - nanmean(valid)`
(again a Python slice with a possibly negative stop). -/
def climo_error (valid : List NDat) (n_fhour : ℕ) (method : String) :
    Except String (List NDat) :=
  if ¬ methodOK method then .error "method must be mse, rmse, or mae"
  else .ok ((List.range n_fhour).map fun f =>
    rowReduce method
      ((pyslice ((valid.length : ℤ) - f) valid).map
        (fun x => nsub x (nanmean valid))))

/-- A time-indexed DataArray for `monthly_climo_error`: labelled times, the
calendar month of each time label, and the (possibly NaN) value at each
time. -/
structure TimeSeriesDA where
  times : List ℤ
  month : ℤ → ℕ
  value : ℤ → NDat

/-- The month-of-year climatology `da.groupby('time.month').mean('time')`
at month `m` (xarray means skip NaN). -/
def monthly_climo (da : TimeSeriesDA) (m : ℕ) : NDat :=
  nanmean ((da.times.filter (fun t => da.month t = m)).map da.value)

/-- `monthly_climo_error(da, val_set, n_fhour, method)` of `verify.py`
lines 105-132 (scalar anomaly statistics; the `return_da` flag only adds
the anomaly array to the return value and is not modelled). A `none`
`n_fhour` returns the bare scalar, modelled as a singleton list. -/
def monthly_climo_error (da : TimeSeriesDA) (val_set : List ℤ)
    (n_fhour : Option ℕ) (method : String) : Except String (List NDat) :=
  if ¬ methodOK method then .error "method must be mse, rmse, or mae"
  else
    let anomaly := val_set.map fun t =>
      nsub (da.value t) (monthly_climo da (da.month t))
    let me := rowReduce method anomaly
    .ok (match n_fhour with
      | some n => List.replicate n me
      | none => [me])

/-- A validation Dataset built by `Preprocessor.data_to_series()`: a sample
(initialization-time) axis and the `predictors` DataArray looked up by
absolute time (hours); `none` is a time absent from the store. -/
structure SeriesDS where
  samples : List ℤ
  predictors : ℤ → NDat

/-- A validation Dataset built by `Preprocessor.data_to_samples()`: a
sample axis and `targets.isel(time_step=0)` looked up by absolute time. -/
structure SamplesDS where
  samples : List ℤ
  targets0 : ℤ → NDat

/-- `verification_from_series(ds, all_ds, forecast_steps, dt)` of
`verify.py` lines 238-273: row `f` (lead step `f+1`) holds, for each
initialization time `t0` of the sample axis, the source value reindexed at
`t0 + (f+1)*dt` hours; reindexing an absent time gives NaN. -/
def verification_from_series (ds : SeriesDS) (all_ds : Option SeriesDS)
    (forecast_steps dt : ℤ) : Except String (List (List NDat)) :=
  if forecast_steps < 1 then .error "forecast_steps must be an integer >= 1"
  else if dt < 1 then .error "dt must be an integer >= 1"
  else
    let src := (all_ds.getD ds).predictors
    .ok ((List.range forecast_steps.toNat).map fun (f : ℕ) =>
      ds.samples.map fun t0 => src (t0 + ((f : ℤ) + 1) * dt))

/-- `verification_from_samples(ds, all_ds, forecast_steps, dt)` of
`verify.py` lines 201-235: identical construction, except the source is
`targets.isel(time_step=0)` and the reindexed range starts at `t0` itself
(`pd.date_range(date, date + dt*(forecast_steps-1))`). -/
def verification_from_samples (ds : SamplesDS) (all_ds : Option SamplesDS)
    (forecast_steps dt : ℤ) : Except String (List (List NDat)) :=
  if forecast_steps < 1 then .error "forecast_steps must be an integer >= 1"
  else if dt < 1 then .error "dt must be an integer >= 1"
  else
    let src := (all_ds.getD ds).targets0
    .ok ((List.range forecast_steps.toNat).map fun (f : ℕ) =>
      ds.samples.map fun t0 => src (t0 + (f : ℤ) * dt))

/-- A pandas Timestamp as consumed by `day_of_year` of `util.py`: the
calendar year and the elapsed seconds since 00:00 on January 1 of that
year (the difference `date - pd.Timestamp(date.year, 1, 1)`). -/
structure Date where
  year : ℤ
  secs : ℝ

/-- `day_of_year(date)` of `util.py`:
`(date - year_start).total_seconds() / 3600. / 24.`. -/
def day_of_year (d : Date) : ℝ := d.secs / 3600 / 24

/-- Obliquity constant of `insolation`: `23.4441 * np.pi / 180.`. -/
def eps : ℝ := 23.4441 * Real.pi / 180

/-- Eccentricity constant of `insolation`: `0.016715`. -/
def ecc : ℝ := 0.016715

/-- Perihelion longitude constant of `insolation`: `282.7 * np.pi / 180.`. -/
def om : ℝ := 282.7 * Real.pi / 180

/-- `beta = np.sqrt(1 - ecc ** 2.)` of `insolation`. -/
def beta : ℝ := Real.sqrt (1 - ecc ^ 2)

/-- `lambda_m0 = ecc * (1. + beta) * np.sin(om)` of `insolation`. -/
def lambda_m0 : ℝ := ecc * (1 + beta) * Real.sin om

/-- `lambda_m = lambda_m0 + 2.*np.pi*(days - 80.5)/365.` at one day value. -/
def lambda_m (day : ℝ) : ℝ := lambda_m0 + 2 * Real.pi * (day - 80.5) / 365

/-- `lambda_ = lambda_m + 2.*ecc*np.sin(lambda_m - om)` at one day value. -/
def lambda_ (day : ℝ) : ℝ :=
  lambda_m day + 2 * ecc * Real.sin (lambda_m day - om)

/-- Solar declination `dec = np.arcsin(np.sin(eps) * np.sin(lambda_))`. -/
def dec (day : ℝ) : ℝ := Real.arcsin (Real.sin eps * Real.sin (lambda_ day))

/-- Hour angle `h = 2*np.pi*(days + lon/360.)` at one day and longitude. -/
def hourAngle (day lon : ℝ) : ℝ := 2 * Real.pi * (day + lon / 360)

/-- Distance factor `rho = (1.-ecc**2.)/(1.+ecc*np.cos(lambda_-om))`. -/
def rho (day : ℝ) : ℝ :=
  (1 - ecc ^ 2) / (1 + ecc * Real.cos (lambda_ day - om))

/-- The insolation value at one (time, grid point): `S * (sin(lat)sin(dec)
- cos(lat)cos(dec)cos(h)) * rho ** -2.` with the night side clamped to 0
(`sol[sol < 0.] = 0.`); `latRad` is the latitude already scaled by
`np.pi / 180.`. -/
def solPoint (S day latRad lon : ℝ) : ℝ :=
  let s := S * (Real.sin latRad * Real.sin (dec day) -
      Real.cos latRad * Real.cos (dec day) * Real.cos (hourAngle day lon)) *
      rho day ^ (-2 : ℤ)
  if s < 0 then 0 else s

/-- A numpy float array of rank 1 or 2, as `insolation` accepts for its
`lat` and `lon` arguments. -/
inductive RArr where
  | one (d : List ℝ)
  | two (d : List (List ℝ))

/-- `insolation(dates, lat, lon, S)` of `util.py` lines 305-352: shape
validation, the 1-D meshgrid (entry `(i, j)` pairs `lat[i]` with `lon[j]`),
and the pointwise formula; result indexed `(date, lat, lon)`. -/
def insolation (dates : List Date) (lat lon : RArr) (S : ℝ) :
    Except String (List (List (List ℝ))) :=
  match lat, lon with
  | .one la, .one lo =>
      .ok (dates.map fun d => la.map fun phi => lo.map fun theta =>
        solPoint S (day_of_year d) (phi * Real.pi / 180) theta)
  | .two la, .two lo =>
      if la.length = lo.length ∧ (la.headD []).length = (lo.headD []).length then
        .ok (dates.map fun d =>
          (la.zip lo).map fun rows =>
            (rows.1.zip rows.2).map fun p =>
              solPoint S (day_of_year d) (p.1 * Real.pi / 180) p.2)
      else .error "shape mismatch between lat and lon"
  | _, _ => .error "lat and lon must either both be 1d or both be 2d"

/-- A source store holding a sample at every `dt` hours from `T0` to `T1`
(the scenario of testable property 4 of the specification): the value at a
grid time `t` is `g t`, any other time is absent. -/
def gridStore (T0 T1 dt : ℤ) (g : ℤ → ℝ) : ℤ → NDat :=
  fun t => if T0 ≤ t ∧ t ≤ T1 ∧ dt ∣ (t - T0) then some (g t) else none

/-- The contents of the caller-visible `lat` buffer after `insolation`
returns. In the 2-D path the statement `lat *= np.pi / 180.` mutates the
argument array in place, so the caller observes the scaled values; in the
1-D path `np.meshgrid` rebinds the local name to a fresh array first, so
the caller's array is untouched; on the shape-mismatch error path the
scaling line is never reached. -/
def insolation_lat_final (lat lon : RArr) : RArr :=
  match lat, lon with
  | .two la, .two lo =>
      if la.length = lo.length ∧ (la.headD []).length = (lo.headD []).length then
        .two (la.map fun row => row.map fun phi => phi * (Real.pi / 180))
      else .two la
  | l, _ => l

end

/-! ### List and reduction lemmas -/

lemma nsub_none_left (y : NDat) : nsub none y = none := by cases y <;> rfl

lemma nsq_none : nsq none = none := rfl

lemma nabs_none : nabs none = none := rfl

lemma mapM_ok {α β : Type} (L : List α) (body : α → Except String β)
    (g : α → β) (h : ∀ a ∈ L, body a = .ok (g a)) :
    L.mapM body = .ok (L.map g) := by
  induction L with
  | nil => rfl
  | cons a t ih =>
      rw [List.mapM_cons, h a (List.mem_cons_self a t), List.map_cons,
        ih (fun b hb => h b (List.mem_cons_of_mem a hb))]
      rfl

lemma getD_map_of_none (g : NDat → NDat) (hg : g none = none)
    (d : List NDat) (j : ℕ) :
    (d.map g).getD j none = g (d.getD j none) := by
  rcases lt_or_ge j d.length with h | h
  · rw [List.getD_eq_getElem _ _ (by simpa using h),
      List.getD_eq_getElem _ _ h, List.getElem_map]
  · rw [List.getD_eq_default _ _ (by simpa using h),
      List.getD_eq_default _ _ h, hg]

lemma eraseIdx_map {α β : Type} (g : α → β) (l : List α) (j : ℕ) :
    (l.eraseIdx j).map g = (l.map g).eraseIdx j := by
  induction l generalizing j with
  | nil => rfl
  | cons a t ih =>
      cases j with
      | zero => rfl
      | succ k => simp [List.eraseIdx_cons_succ, ih]

lemma filterMap_id_eraseIdx_none (d : List NDat) (j : ℕ)
    (h : d.getD j none = none) :
    (d.eraseIdx j).filterMap id = d.filterMap id := by
  induction d generalizing j with
  | nil => simp
  | cons a t ih =>
      cases j with
      | zero =>
          have ha : a = none := by simpa using h
          simp [ha]
      | succ k =>
          have hk : t.getD k none = none := by simpa using h
          cases a with
          | none => simp [List.eraseIdx_cons_succ, ih k hk]
          | some x => simp [List.eraseIdx_cons_succ, ih k hk]

lemma nanmean_eraseIdx (d : List NDat) (j : ℕ) (h : d.getD j none = none) :
    nanmean (d.eraseIdx j) = nanmean d := by
  unfold nanmean
  rw [filterMap_id_eraseIdx_none d j h]

lemma rowReduce_eraseIdx (m : String) (d : List NDat) (j : ℕ)
    (h : d.getD j none = none) :
    rowReduce m (d.eraseIdx j) = rowReduce m d := by
  unfold rowReduce
  simp only [eraseIdx_map]
  rw [nanmean_eraseIdx (d.map nsq) j
        (by rw [getD_map_of_none nsq nsq_none d j, h, nsq_none]),
      nanmean_eraseIdx (d.map nabs) j
        (by rw [getD_map_of_none nabs nabs_none d j, h, nabs_none])]

lemma zipWith_eraseIdx (v w : List NDat) (j : ℕ) :
    List.zipWith nsub (v.eraseIdx j) (w.eraseIdx j)
      = (List.zipWith nsub v w).eraseIdx j := by
  induction v generalizing w j with
  | nil => simp
  | cons a t ih =>
      cases w with
      | nil => simp
      | cons b u =>
          cases j with
          | zero => rfl
          | succ k => simp [List.eraseIdx_cons_succ, ih]

lemma range_map_nsub_getD (v w : List NDat) (h : v.length = w.length) :
    (List.range v.length).map (fun j => nsub (v.getD j none) (w.getD j none))
      = List.zipWith nsub v w := by
  induction v generalizing w with
  | nil => simp
  | cons a t ih =>
      cases w with
      | nil => simp at h
      | cons b u =>
          rw [List.length_cons, List.range_succ_eq_map, List.map_cons,
            List.map_map, List.zipWith_cons_cons]
          congr 1
          rw [← ih u (by simpa using h)]
          apply List.map_congr_left
          intro x _
          simp [List.getD_cons_succ]

lemma bsub2_single (v w : List NDat) (h : v.length = w.length) :
    bsub2 [v] [w] = some [List.zipWith nsub v w] := by
  unfold bsub2
  simp only [List.length_cons, List.length_nil, List.headD_cons, Nat.zero_add]
  rw [if_pos (by simp [dimOK, h])]
  congr 1
  rw [Nat.max_self, show List.range 1 = [0] from rfl, List.map_cons,
    List.map_nil]
  congr 1
  have hmax : max v.length w.length = v.length := by rw [h, Nat.max_self]
  rw [hmax, ← range_map_nsub_getD v w h]
  apply List.map_congr_left
  intro j hj
  rw [List.mem_range] at hj
  have hb1 : bidx 1 0 = 0 := rfl
  by_cases hc : v.length = 1
  · have hj0 : j = 0 := by omega
    simp [bget2, bidx, hb1, hj0, hc, ← h]
  · have hcw : ¬ w.length = 1 := by rw [← h]; exact hc
    simp [bget2, bidx, hc, hcw, ← h]

/-! ### C1: the concrete scenario of spec section 8.6 -/

/-- C1 (counterexample): on the scenario exactly as written — forecast of
shape (4, 1), valid of shape (5, 1), method `mae` — the same-rank
elementwise branch of `forecast_error` cannot broadcast the two shapes:
the call raises instead of returning [0, 1, 0, 1]. -/
theorem c1_same_rank_shape_mismatch_raises :
    forecast_error
        (.two [[some 1], [some 2], [some 3], [some 4]])
        (.two [[some 1], [some 1], [some 3], [some 3], [some 5]]) "mae"
        = .error "operands could not be broadcast together" ∧
      forecast_error
        (.two [[some 1], [some 2], [some 3], [some 4]])
        (.two [[some 1], [some 1], [some 3], [some 3], [some 5]]) "mae"
        ≠ .ok [some 0, some 1, some 0, some 1] := by
  constructor
  · rfl
  · intro hcon
    rw [show forecast_error
        (.two [[some 1], [some 2], [some 3], [some 4]])
        (.two [[some 1], [some 1], [some 3], [some 3], [some 5]]) "mae"
        = .error "operands could not be broadcast together" from rfl] at hcon
    exact Except.noConfusion hcon

/-- C1 (amended): the same-rank branch does elementwise comparison with no
implicit alignment, so the caller must pass `valid` already aligned to the
four lead steps — shape (4, 1) with values [1, 3, 3, 5], the observations
at t0+6h .. t0+24h.  Then `forecast_error(method='mae')` on the forecast
[1, 2, 3, 4] returns [0, 1, 0, 1]. -/
theorem c1_aligned_mae_scenario :
    forecast_error
      (.two [[some 1], [some 2], [some 3], [some 4]])
      (.two [[some 1], [some 3], [some 3], [some 5]]) "mae"
      = .ok [some 0, some 1, some 0, some 1] := by
  simp [forecast_error, methodOK, feSame2, bsub2, dimOK, bidx, bget2,
    rowReduce, nanmean, nsub, nabs, List.range_succ]
  norm_num

/-! ### C4: not-a-number exclusion in every reduction method -/

/-- C4: for lead-time-indexed arrays (shown here with one lead row, where
removing a single element keeps the array rectangular), an entry that is
NaN in `valid` contributes nothing to any of the three reductions:
`forecast_error` returns the same metric as on the arrays with that
element removed. -/
theorem c4_nan_excluded_from_reduction (v w : List NDat) (j : ℕ) (m : String)
    (hm : methodOK m = true) (hlen : v.length = w.length)
    (hj : v.getD j none = none) :
    forecast_error (.two [w]) (.two [v]) m
      = forecast_error (.two [w.eraseIdx j]) (.two [v.eraseIdx j]) m := by
  have hz : (List.zipWith nsub v w).getD j none = none := by
    rcases lt_or_ge j v.length with hlt | hge
    · have hzl : j < (List.zipWith nsub v w).length := by
        simp only [List.length_zipWith, ← hlen, Nat.min_self]
        exact hlt
      rw [List.getD_eq_getElem _ _ hzl, List.getElem_zipWith,
        ← List.getD_eq_getElem v none hlt, hj, nsub_none_left]
    · have : (List.zipWith nsub v w).length ≤ j := by
        simp only [List.length_zipWith, ← hlen, Nat.min_self]
        exact hge
      rw [List.getD_eq_default _ _ this]
  have hlen2 : (v.eraseIdx j).length = (w.eraseIdx j).length := by
    simp [List.length_eraseIdx, hlen]
  unfold forecast_error
  rw [if_neg (not_not_intro hm), if_neg (not_not_intro hm)]
  show feSame2 [w] [v] m = feSame2 [w.eraseIdx j] [v.eraseIdx j] m
  unfold feSame2
  rw [bsub2_single v w hlen, bsub2_single _ _ hlen2]
  show Except.ok [rowReduce m (List.zipWith nsub v w)]
    = Except.ok [rowReduce m (List.zipWith nsub (v.eraseIdx j) (w.eraseIdx j))]
  rw [zipWith_eraseIdx, rowReduce_eraseIdx m _ j hz]

/-- Witness for C4 at a concrete input: valid [1, NaN] against forecast
[5, 7] under `mae` scores like valid [1] against forecast [5]. -/
theorem c4_nan_excluded_from_reduction_witness :
    methodOK "mae" = true ∧
    forecast_error (.two [[some 5, some 7]]) (.two [[some 1, none]]) "mae"
      = forecast_error (.two [[some 5]]) (.two [[some 1]]) "mae" :=
  ⟨rfl, c4_nan_excluded_from_reduction [some 1, none] [some 5, some 7] 1
    "mae" rfl rfl rfl⟩

/-! ### C5: the rank-mismatch shift-and-truncate branch -/

lemma pyslice_of_le (l : List NDat) (n g : ℕ) (hg : g ≤ n) :
    pyslice ((n : ℤ) - g) l = l.take (n - g) := by
  unfold pyslice
  rw [if_pos (by omega)]
  congr 1
  omega

/-- C5: when `valid` is a plain series (one fewer axis than `forecast`),
entry `f` of `forecast_error` is the chosen reduction between `valid[f:]`
and the Python slice `forecast[f, :(n_val - f)]`.  The hypotheses keep
every lead step inside the series (`F.length ≤ v.length`, so no slice
stop goes negative) with each row long enough for its truncated slice;
that is exactly the regime in which every comparison broadcasts — a lead
step beyond `n_val` slices the row from its end and in general raises. -/
theorem c5_shifted_overlap_reduction (F : List (List NDat)) (v : List NDat)
    (m : String) (f : ℕ) (hm : methodOK m = true) (hf : f < F.length)
    (hnf : F.length ≤ v.length)
    (hrow : ∀ g, g < F.length → v.length - g ≤ (F.getD g []).length) :
    ∃ ms, forecast_error (.two F) (.one v) m = .ok ms ∧
      ms.length = F.length ∧
      ms.getD f none = rowReduce m (List.zipWith nsub (v.drop f)
        (pyslice ((v.length : ℤ) - f) (F.getD f []))) := by
  have hfe : forecast_error (.two F) (.one v) m = feShift F v m := by
    unfold forecast_error
    rw [if_neg (not_not_intro hm)]
  have hshift : feShift F v m = .ok ((List.range F.length).map fun g =>
      rowReduce m (List.zipWith nsub (v.drop g)
        (pyslice ((v.length : ℤ) - g) (F.getD g [])))) := by
    unfold feShift
    apply mapM_ok
    intro g hg
    rw [List.mem_range] at hg
    have hgv : g ≤ v.length := le_trans (le_of_lt hg) hnf
    have hps : pyslice ((v.length : ℤ) - g) (F.getD g [])
        = (F.getD g []).take (v.length - g) :=
      pyslice_of_le (F.getD g []) v.length g hgv
    have hlen : (v.drop g).length
        = (pyslice ((v.length : ℤ) - g) (F.getD g [])).length := by
      rw [hps, List.length_drop, List.length_take]
      exact (Nat.min_eq_left (hrow g hg)).symm
    unfold bsub1
    rw [if_pos hlen]
  refine ⟨_, hfe.trans hshift, by simp, ?_⟩
  rw [List.getD_eq_getElem _ _ (by simpa using hf), List.getElem_map,
    List.getElem_range]

/-- Witness for C5 at a concrete input: forecast rows [[10, 20], [30, 40]]
against the series [10, 21]; at lead index 1 the overlap is the single
pair (valid[1], forecast[1, 0]). -/
theorem c5_shifted_overlap_reduction_witness :
    methodOK "mae" = true ∧ (1 : ℕ) < 2 ∧ (2 : ℕ) ≤ 2 ∧
    ∃ ms, forecast_error (.two [[some 10, some 20], [some 30, some 40]])
        (.one [some 10, some 21]) "mae" = .ok ms ∧
      ms.length = 2 ∧
      ms.getD 1 none = rowReduce "mae" (List.zipWith nsub
        ([some 10, some 21].drop 1)
        (pyslice ((2 : ℤ) - 1)
          ([[some 10, some 20], [some 30, some 40]].getD 1 []))) :=
  ⟨rfl, by norm_num, by norm_num,
    c5_shifted_overlap_reduction [[some 10, some 20], [some 30, some 40]]
      [some 10, some 21] "mae" 1 rfl (by norm_num) (by norm_num)
      (by
        intro g hg
        have hg2 : g < 2 := by simpa using hg
        interval_cases g <;> simp)⟩

/-! ### C3: the persistence baseline and monotone ground truth -/

lemma zipWith_map_some_replicate (t : List ℝ) (n : ℕ) (v : ℝ)
    (h : t.length ≤ n) :
    List.zipWith nsub (t.map some) (List.replicate n (some v))
      = t.map (fun a => some (a - v)) := by
  induction t generalizing n with
  | nil => simp
  | cons a u ih =>
      cases n with
      | zero => simp at h
      | succ k =>
          simp only [List.map_cons, List.replicate_succ,
            List.zipWith_cons_cons]
          rw [ih k (by simpa using h)]
          rfl

lemma rowReduce_mae_map_some (t : List ℝ) (ht : t.length ≠ 0) :
    rowReduce "mae" (t.map some)
      = some ((t.map (fun a => |a|)).sum / (t.length : ℝ)) := by
  have hmm : (t.map some).map nabs = (t.map (fun a => |a|)).map some := by
    simp only [List.map_map]
    rfl
  have hflt : ((t.map (fun a => |a|)).map some).filterMap id
      = t.map (fun a => |a|) := by simp
  unfold rowReduce nanmean
  rw [if_neg (by decide), if_pos rfl, hmm]
  simp only [hflt]
  rw [if_neg (by simpa using ht)]
  simp

/-- Evaluation of `persistence_error` under `mae` for a constant predictor
`v` (one copy per sample) against a plain series: lead entry `f` is the
mean of `|valid[i] - v|` over `i = f .. n-1`. -/
lemma persistence_mae_eval (l : List ℝ) (v : ℝ) (n : ℕ) (hn : n ≤ l.length) :
    persistence_error (List.replicate l.length (some v)) (l.map some) n "mae"
      = .ok ((List.range n).map fun f =>
          some ((((l.drop f).map (fun a => |a - v|)).sum)
            / ((l.length - f : ℕ) : ℝ))) := by
  unfold persistence_error
  rw [if_neg (by norm_num [methodOK])]
  apply mapM_ok
  intro f hf
  rw [List.mem_range] at hf
  have hf' : f < l.length := lt_of_lt_of_le hf hn
  have hdrop : (l.map some).drop f = (l.drop f).map some :=
    (List.map_drop ..).symm
  have hps : pyslice (((l.map some).length : ℤ) - f)
      (List.replicate l.length (some v : NDat))
      = List.replicate (l.length - f) (some v) := by
    rw [List.length_map,
      pyslice_of_le (List.replicate l.length (some v)) l.length f
        (le_of_lt hf'),
      List.take_replicate, Nat.min_eq_left (Nat.sub_le _ _)]
  have hlen : ((l.drop f).map some).length
      = (List.replicate (l.length - f) (some v : NDat)).length := by
    simp
  rw [hdrop, hps]
  unfold bsub1
  rw [if_pos hlen,
    zipWith_map_some_replicate (l.drop f) (l.length - f) v (by simp)]
  have ht : ((l.drop f).map (fun a => a - v)).length ≠ 0 := by
    simp only [List.length_map, List.length_drop]
    exact Nat.sub_ne_zero_of_lt hf'
  have hsome : ((l.drop f).map (fun a => a - v)).map some
      = (l.drop f).map (fun a => some (a - v)) := by
    simp only [List.map_map]
    rfl
  have hrr := rowReduce_mae_map_some ((l.drop f).map (fun a => a - v)) ht
  rw [hsome] at hrr
  show Except.ok (rowReduce "mae" ((l.drop f).map fun a => some (a - v))) = _
  rw [hrr]
  have hnum : (((l.drop f).map (fun a => a - v)).map (fun a => |a|))
      = (l.drop f).map (fun a => |a - v|) := by
    simp only [List.map_map]
    rfl
  rw [hnum]
  simp [List.length_map, List.length_drop]

/-- The mean cannot decrease when an element no larger than everything
else is removed from the front. -/
lemma mean_cons_le (a : ℝ) (t : List ℝ) (hne : t ≠ [])
    (hall : ∀ b ∈ t, a ≤ b) :
    (a + t.sum) / (t.length + 1) ≤ t.sum / t.length := by
  have hl : 0 < (t.length : ℝ) := by
    have : t.length ≠ 0 := fun h => hne (List.length_eq_zero.mp h)
    positivity
  have hsum : (t.length : ℝ) * a ≤ t.sum := by
    have h2 := List.card_nsmul_le_sum t a hall
    simpa [nsmul_eq_mul, mul_comm] using h2
  rw [div_le_div_iff₀ (by positivity) hl]
  nlinarith

/-- A sequence whose adjacent terms increase is monotone below `n`. -/
lemma chain_mono (n : ℕ) (g : ℕ → ℝ) (h : ∀ k, k + 1 < n → g k ≤ g (k + 1)) :
    ∀ i j, i ≤ j → j < n → g i ≤ g j := by
  intro i j
  induction j with
  | zero =>
      intro hij _
      rw [Nat.le_zero.mp hij]
  | succ k ih =>
      intro hij hj
      rcases Nat.lt_succ_iff_lt_or_eq.mp (Nat.lt_succ_of_le hij) with hlt | heq
      · exact le_trans (ih (Nat.lt_succ_iff.mp hlt) (Nat.lt_of_succ_lt hj))
          (h k hj)
      · rw [heq]

/-- C3 (counterexample): predictors constantly 2 against the monotonically
increasing series [0, 1, 2] give MAE [1, 1/2] — strictly decreasing, so
the claim fails without a condition relating `v` to the series. -/
theorem c3_constant_above_series_mae_decreases :
    ∃ ms, persistence_error (List.replicate 3 (some 2))
        [some 0, some 1, some 2] 2 "mae" = .ok ms ∧
      ms.getD 0 none = some 1 ∧ ms.getD 1 none = some (1 / 2) ∧
      ¬ ((1 : ℝ) ≤ 1 / 2) := by
  refine ⟨[some 1, some (1 / 2)], ?_, by norm_num, by norm_num, by norm_num⟩
  simp [persistence_error, methodOK, pyslice, bsub1, rowReduce, nanmean,
    nsub, nabs, List.range_succ, List.replicate, List.mapM_cons,
    List.mapM_nil, List.mapM.loop]
  norm_num
  rfl

/-- C3 (amended): when the constant predictor value `v` lies at or below
the (monotonically increasing) ground truth — in particular when it is the
initialization value, as in a persistence forecast — the per-lead-time MAE
of `persistence_error` is monotonically nondecreasing in the lead index. -/
theorem c3_persistence_mae_monotone (l : List ℝ) (v : ℝ) (n : ℕ)
    (hs : List.Sorted (· ≤ ·) l) (hv : ∀ a ∈ l, v ≤ a) (hn : n ≤ l.length) :
    ∃ ms, persistence_error (List.replicate l.length (some v)) (l.map some)
        n "mae" = .ok ms ∧ ms.length = n ∧
      ∀ i j, i ≤ j → j < n → ∃ a b,
        ms.getD i none = some a ∧ ms.getD j none = some b ∧ a ≤ b := by
  have hg : ∀ f, ((l.drop f).map (fun a => |a - v|))
      = (l.drop f).map (fun a => a - v) := by
    intro f
    apply List.map_congr_left
    intro a ha
    exact abs_of_nonneg (sub_nonneg.mpr (hv a (List.drop_subset f l ha)))
  set g : ℕ → ℝ := fun f =>
    (((l.drop f).map (fun a => |a - v|)).sum) / ((l.length - f : ℕ) : ℝ)
    with hgdef
  have hadj : ∀ k, k + 1 < n → g k ≤ g (k + 1) := by
    intro k hk
    have hk1 : k + 1 < l.length := lt_of_lt_of_le hk hn
    have hkl : k < l.length := Nat.lt_of_succ_lt hk1
    have hdropk : l.drop k = l[k] :: l.drop (k + 1) :=
      (List.getElem_cons_drop l k hkl).symm
    have hsorted : List.Sorted (· ≤ ·) (l.drop k) :=
      hs.sublist (List.drop_sublist k l)
    have hhead : ∀ b ∈ l.drop (k + 1), l[k] ≤ b := by
      rw [hdropk] at hsorted
      exact (List.pairwise_cons.mp hsorted).1
    have hne : l.drop (k + 1) ≠ [] := by
      have : (l.drop (k + 1)).length = l.length - (k + 1) := List.length_drop ..
      intro hcon
      rw [hcon] at this
      simp only [List.length_nil] at this
      omega
    have hcast1 : ((l.length - k : ℕ) : ℝ)
        = ((l.drop (k + 1)).map (fun a => a - v)).length + 1 := by
      rw [List.length_map, List.length_drop]
      push_cast [Nat.le_of_lt hkl, Nat.le_of_lt hk1]
      ring
    have hmean := mean_cons_le (l[k] - v) ((l.drop (k + 1)).map (fun a => a - v))
      (by simpa using hne)
      (by
        intro b hb
        rw [List.mem_map] at hb
        obtain ⟨c, hc, rfl⟩ := hb
        exact sub_le_sub_right (hhead c hc) v)
    rw [hgdef]
    simp only [hg]
    rw [hdropk, List.map_cons, List.sum_cons]
    have hcast2 : ((l.length - (k + 1) : ℕ) : ℝ)
        = ((l.drop (k + 1)).map (fun a => a - v)).length := by
      rw [List.length_map, List.length_drop]
    rw [hcast1, hcast2]
    exact hmean
  refine ⟨_, persistence_mae_eval l v n hn, by simp, ?_⟩
  intro i j hij hj
  refine ⟨g i, g j, ?_, ?_, chain_mono n g hadj i j hij hj⟩
  · rw [List.getD_eq_getElem _ _ (by simpa using lt_of_le_of_lt hij hj),
      List.getElem_map, List.getElem_range]
  · rw [List.getD_eq_getElem _ _ (by simpa using hj),
      List.getElem_map, List.getElem_range]

/-- Witness for C3 at a concrete input: v = 0 against the increasing
series [0, 1, 3], three lead steps. -/
theorem c3_persistence_mae_monotone_witness :
    List.Sorted (· ≤ ·) [(0 : ℝ), 1, 3] ∧
    ∃ ms, persistence_error (List.replicate 3 (some 0))
        ([(0 : ℝ), 1, 3].map some) 3 "mae" = .ok ms ∧ ms.length = 3 ∧
      ∀ i j, i ≤ j → j < 3 → ∃ a b,
        ms.getD i none = some a ∧ ms.getD j none = some b ∧ a ≤ b := by
  refine ⟨by norm_num, ?_⟩
  have h := c3_persistence_mae_monotone [(0 : ℝ), 1, 3] 0 3
    (by norm_num) (by norm_num) (by norm_num)
  simpa using h

/-! ### C9: reindexing fills present times and leaves NaN for absent ones -/

/-- C9: with valid parameters, `verification_from_series` never raises:
it returns a full (forecast_steps × samples) trajectory whose entry at
lead index `f` and initialization time `samples[i]` is exactly the source
lookup at `samples[i] + (f+1)*dt` — the observed value when that time is
present in the source store, NaN (`none`) when it is absent. -/
theorem c9_absent_times_are_nan_not_errors (ds : SeriesDS)
    (all_ds : Option SeriesDS) (forecast_steps dt : ℤ)
    (hfs : 1 ≤ forecast_steps) (hdt : 1 ≤ dt) :
    ∃ out, verification_from_series ds all_ds forecast_steps dt = .ok out ∧
      out.length = forecast_steps.toNat ∧
      ∀ f, f < forecast_steps.toNat → ∀ i, i < ds.samples.length →
        (out.getD f []).getD i none
          = (all_ds.getD ds).predictors (ds.samples.getD i 0 + ((f : ℤ) + 1) * dt) := by
  have hok : verification_from_series ds all_ds forecast_steps dt
      = .ok ((List.range forecast_steps.toNat).map fun (f : ℕ) =>
          ds.samples.map fun t0 =>
            (all_ds.getD ds).predictors (t0 + ((f : ℤ) + 1) * dt)) := by
    unfold verification_from_series
    rw [if_neg (show ¬ forecast_steps < 1 by omega),
      if_neg (show ¬ dt < 1 by omega)]
  refine ⟨_, hok, by simp, ?_⟩
  intro f hf i hi
  have hfl : f < ((List.range forecast_steps.toNat).map fun (f : ℕ) =>
      ds.samples.map fun t0 =>
        (all_ds.getD ds).predictors (t0 + ((f : ℤ) + 1) * dt)).length := by
    simpa using hf
  rw [List.getD_eq_getElem _ _ hfl, List.getElem_map, List.getElem_range]
  have hil : i < (ds.samples.map fun t0 =>
      (all_ds.getD ds).predictors (t0 + ((f : ℤ) + 1) * dt)).length := by
    simpa using hi
  rw [List.getD_eq_getElem _ _ hil, List.getElem_map,
    List.getD_eq_getElem _ _ hi]

/-- Witness for C9 at a concrete input: two samples, two lead steps, a
store holding time 18 only. -/
theorem c9_absent_times_are_nan_not_errors_witness :
    (1 : ℤ) ≤ 2 ∧
    ∃ out, verification_from_series
        ⟨[0, 6], fun t => if t = 18 then some 42 else none⟩ none 2 6
        = .ok out ∧ out.length = (2 : ℤ).toNat ∧
      ∀ f, f < (2 : ℤ).toNat → ∀ i,
        i < (SeriesDS.samples ⟨[0, 6], fun t => if t = 18 then some 42 else none⟩).length →
        (out.getD f []).getD i none
          = (if ([0, 6].getD i 0 + ((f : ℤ) + 1) * 6) = 18 then some 42 else none) :=
  ⟨by norm_num,
    c9_absent_times_are_nan_not_errors
      ⟨[0, 6], fun t => if t = 18 then some 42 else none⟩ none 2 6
      (by norm_num) (by norm_num)⟩

/-! ### C6: reindex correctness over a complete store -/

/-- C6: over a store with a sample every `dt` hours from `T0` to `T1`, for
an initialization time `t0 = samples[i]` on the grid with
`t0 + forecast_steps*dt ≤ T1`, the `verification_from_series` entry at
lead step `f ∈ {1..forecast_steps}` is exactly the raw store value at
`t0 + f*dt`. -/
theorem c6_verification_reindex_correct (T0 T1 dtz : ℤ) (g : ℤ → ℝ)
    (samples : List ℤ) (i : ℕ) (t0 forecast_steps : ℤ) (f : ℕ)
    (hfs : 1 ≤ forecast_steps) (hdt : 1 ≤ dtz)
    (hi : i < samples.length) (ht0 : samples.getD i 0 = t0)
    (hT0 : T0 ≤ t0) (hgrid : dtz ∣ (t0 - T0))
    (hT1 : t0 + forecast_steps * dtz ≤ T1)
    (hf1 : 1 ≤ f) (hffs : (f : ℤ) ≤ forecast_steps) :
    ∃ out, verification_from_series ⟨samples, gridStore T0 T1 dtz g⟩ none
        forecast_steps dtz = .ok out ∧
      (out.getD (f - 1) []).getD i none = some (g (t0 + f * dtz)) := by
  obtain ⟨out, hout, _, hentry⟩ := c9_absent_times_are_nan_not_errors
    ⟨samples, gridStore T0 T1 dtz g⟩ none forecast_steps dtz hfs hdt
  refine ⟨out, hout, ?_⟩
  have hfm : f - 1 < forecast_steps.toNat := by omega
  rw [hentry (f - 1) hfm i hi]
  show gridStore T0 T1 dtz g _ = _
  have harg : samples.getD i 0 + (((f - 1 : ℕ) : ℤ) + 1) * dtz = t0 + f * dtz := by
    rw [ht0]
    have : ((f - 1 : ℕ) : ℤ) = (f : ℤ) - 1 := by omega
    rw [this]
    ring
  rw [harg]
  unfold gridStore
  rw [if_pos ⟨by nlinarith, by nlinarith, by
    obtain ⟨c, hc⟩ := hgrid
    exact ⟨c + f, by rw [show t0 + f * dtz - T0 = (t0 - T0) + f * dtz by ring, hc]; ring⟩⟩]

/-- Witness for C6 at a concrete input: grid every 6 h from 0 to 48,
t0 = 12, four forecast steps, lead step 3 reads the store at hour 30. -/
theorem c6_verification_reindex_correct_witness :
    ∃ out, verification_from_series
        ⟨[6, 12], gridStore 0 48 6 (fun t => (t : ℝ))⟩ none 4 6 = .ok out ∧
      (out.getD (3 - 1) []).getD 1 none = some ((30 : ℤ) : ℝ) :=
  c6_verification_reindex_correct 0 48 6 (fun t => (t : ℝ)) [6, 12] 1 12 4 3
    (by norm_num) (by norm_num) (by norm_num) rfl (by norm_num)
    (by norm_num) (by norm_num) (by norm_num) (by norm_num)

/-! ### C7: the two verification builders agree on common observations -/

/-- C7: when the samples-store targets at sample time `t` (time_step 0)
hold the observation at `t + dt` and the series-store predictors at `t`
hold the observation at `t`, `verification_from_samples` and
`verification_from_series` build identical verification trajectories for
the same validation samples, forecast_steps and dt. -/
theorem c7_samples_series_reindex_agree (obs : ℤ → NDat) (samples : List ℤ)
    (forecast_steps dt : ℤ) :
    verification_from_samples ⟨samples, fun t => obs (t + dt)⟩ none
        forecast_steps dt
      = verification_from_series ⟨samples, obs⟩ none forecast_steps dt := by
  unfold verification_from_samples verification_from_series
  by_cases h : forecast_steps < 1
  · rw [if_pos h, if_pos h]
  · rw [if_neg h, if_neg h]
    by_cases h2 : dt < 1
    · rw [if_pos h2, if_pos h2]
    · rw [if_neg h2, if_neg h2]
      simp only [Option.getD_none]
      congr 1
      apply List.map_congr_left
      intro f _
      apply List.map_congr_left
      intro t0 _
      congr 1
      ring

/-! ### C10: in-place scaling of a 2-D latitude argument -/

/-- C10: after a successful 2-D call the caller's `lat` array holds its
original values scaled by pi/180 (the in-place `lat *= np.pi / 180.`),
while a 1-D call leaves the caller's array untouched because `np.meshgrid`
rebinds the local name to a fresh array first. -/
theorem c10_lat_mutated_in_2d_path (la lo : List (List ℝ)) (d : List ℝ)
    (hshape : la.length = lo.length ∧ (la.headD []).length = (lo.headD []).length) :
    insolation_lat_final (.two la) (.two lo)
        = .two (la.map fun row => row.map fun phi => phi * (Real.pi / 180)) ∧
      ∀ lon, insolation_lat_final (.one d) lon = .one d := by
  constructor
  · show (if la.length = lo.length ∧ (la.headD []).length = (lo.headD []).length
        then RArr.two (la.map fun row => row.map fun phi => phi * (Real.pi / 180))
        else RArr.two la) = _
    rw [if_pos hshape]
  · intro lon
    cases lon <;> rfl

/-- Witness for C10 at a concrete input. -/
theorem c10_lat_mutated_in_2d_path_witness :
    insolation_lat_final (.two [[10, 20]]) (.two [[30, 40]])
        = .two ([[10, 20]].map fun row => row.map fun phi => phi * (Real.pi / 180)) ∧
      ∀ lon, insolation_lat_final (.one [10]) lon = .one [10] :=
  c10_lat_mutated_in_2d_path [[10, 20]] [[30, 40]] [10] (by norm_num)

/-! ### C8: configuration errors are raised synchronously at call time -/

/-- C8: every invalid shape/parameter combination fails immediately with a
configuration error, whatever the other arguments are: `insolation` on
mixed-rank or shape-mismatched lat/lon; the verification builders on
`forecast_steps < 1` or `dt < 1`; and all four error metrics on an unknown
reduction method. -/
theorem c8_configuration_errors_are_synchronous :
    (∀ (dates : List Date) (la : List ℝ) (lo : List (List ℝ)) (S : ℝ),
      insolation dates (.one la) (.two lo) S
          = .error "lat and lon must either both be 1d or both be 2d" ∧
        insolation dates (.two lo) (.one la) S
          = .error "lat and lon must either both be 1d or both be 2d") ∧
    (∀ (dates : List Date) (la lo : List (List ℝ)) (S : ℝ),
      ¬ (la.length = lo.length ∧ (la.headD []).length = (lo.headD []).length) →
      insolation dates (.two la) (.two lo) S
        = .error "shape mismatch between lat and lon") ∧
    (∀ (ds : SeriesDS) (all_ds : Option SeriesDS) (fs dt : ℤ),
      (fs < 1 → verification_from_series ds all_ds fs dt
        = .error "forecast_steps must be an integer >= 1") ∧
      (dt < 1 → ¬ fs < 1 → verification_from_series ds all_ds fs dt
        = .error "dt must be an integer >= 1")) ∧
    (∀ (ds : SamplesDS) (all_ds : Option SamplesDS) (fs dt : ℤ),
      (fs < 1 → verification_from_samples ds all_ds fs dt
        = .error "forecast_steps must be an integer >= 1") ∧
      (dt < 1 → ¬ fs < 1 → verification_from_samples ds all_ds fs dt
        = .error "dt must be an integer >= 1")) ∧
    (∀ (m : String), methodOK m = false →
      (∀ (forecast valid : NArr), forecast_error forecast valid m
        = .error "method must be mse, rmse, or mae") ∧
      (∀ (p v : List NDat) (n : ℕ), persistence_error p v n m
        = .error "method must be mse, rmse, or mae") ∧
      (∀ (v : List NDat) (n : ℕ), climo_error v n m
        = .error "method must be mse, rmse, or mae") ∧
      (∀ (da : TimeSeriesDA) (vs : List ℤ) (n : Option ℕ),
        monthly_climo_error da vs n m
          = .error "method must be mse, rmse, or mae")) := by
  refine ⟨fun dates la lo S => ⟨rfl, rfl⟩, ?_, ?_, ?_, ?_⟩
  · intro dates la lo S h
    show (if la.length = lo.length ∧ (la.headD []).length = (lo.headD []).length
        then _ else Except.error "shape mismatch between lat and lon") = _
    rw [if_neg h]
  · intro ds all_ds fs dt
    constructor
    · intro h
      unfold verification_from_series
      rw [if_pos h]
    · intro h2 h
      unfold verification_from_series
      rw [if_neg h, if_pos h2]
  · intro ds all_ds fs dt
    constructor
    · intro h
      unfold verification_from_samples
      rw [if_pos h]
    · intro h2 h
      unfold verification_from_samples
      rw [if_neg h, if_pos h2]
  · intro m hm
    have hcond : ¬ methodOK m = true := by simp [hm]
    refine ⟨?_, ?_, ?_, ?_⟩
    · intro forecast valid
      unfold forecast_error
      rw [if_pos hcond]
    · intro p v n
      unfold persistence_error
      rw [if_pos hcond]
    · intro v n
      unfold climo_error
      rw [if_pos hcond]
    · intro da vs n
      unfold monthly_climo_error
      rw [if_pos hcond]

/-- Witness for C8 at concrete inputs, one per error family. -/
theorem c8_configuration_errors_are_synchronous_witness :
    insolation [] (.one [1]) (.two [[1]]) 1
        = .error "lat and lon must either both be 1d or both be 2d" ∧
      insolation [] (.two [[1], [2]]) (.two [[1]]) 1
        = .error "shape mismatch between lat and lon" ∧
      verification_from_series ⟨[], fun _ => none⟩ none 0 6
        = .error "forecast_steps must be an integer >= 1" ∧
      verification_from_samples ⟨[], fun _ => none⟩ none 4 0
        = .error "dt must be an integer >= 1" ∧
      forecast_error (.one []) (.one []) "mze"
        = .error "method must be mse, rmse, or mae" ∧
      monthly_climo_error ⟨[], fun _ => 1, fun _ => none⟩ [] none "mze"
        = .error "method must be mse, rmse, or mae" := by
  obtain ⟨h1, h2, h3, h4, h5⟩ := c8_configuration_errors_are_synchronous
  exact ⟨(h1 [] [1] [[1]] 1).1,
    h2 [] [[1], [2]] [[1]] 1 (by norm_num),
    (h3 ⟨[], fun _ => none⟩ none 0 6).1 (by norm_num),
    (h4 ⟨[], fun _ => none⟩ none 4 0).2 (by norm_num) (by norm_num),
    (h5 "mze" (by decide)).1 (.one []) (.one []),
    (h5 "mze" (by decide)).2.2.2 ⟨[], fun _ => 1, fun _ => none⟩ [] none⟩

/-! ### C2: insolation bounds -/

lemma trig_combo_le_one (a b c : ℝ) (hc : |c| ≤ 1) :
    Real.sin a * Real.sin b - Real.cos a * Real.cos b * c ≤ 1 := by
  have ha := Real.sin_sq_add_cos_sq a
  have hb := Real.sin_sq_add_cos_sq b
  have hc2 : c ^ 2 ≤ 1 := by
    rw [abs_le] at hc
    nlinarith [hc.1, hc.2]
  nlinarith [sq_nonneg (Real.sin a - Real.sin b),
    sq_nonneg (Real.cos a + Real.cos b * c),
    mul_nonneg (sq_nonneg (Real.cos b)) (sub_nonneg.mpr hc2)]

lemma rho_denom_pos (day : ℝ) : 0 < 1 + ecc * Real.cos (lambda_ day - om) := by
  have h1 := Real.neg_one_le_cos (lambda_ day - om)
  have h2 := Real.cos_le_one (lambda_ day - om)
  unfold ecc
  nlinarith

lemma rho_pos (day : ℝ) : 0 < rho day := by
  unfold rho
  apply div_pos
  · unfold ecc
    norm_num
  · exact rho_denom_pos day

lemma one_sub_ecc_le_rho (day : ℝ) : 1 - ecc ≤ rho day := by
  unfold rho
  rw [le_div_iff₀ (rho_denom_pos day)]
  have h2 := Real.cos_le_one (lambda_ day - om)
  have h1 := Real.neg_one_le_cos (lambda_ day - om)
  unfold ecc
  nlinarith

lemma zpow_neg_two_eq (a : ℝ) : a ^ (-2 : ℤ) = (a ^ 2)⁻¹ := by
  rw [zpow_neg, zpow_two, ← sq]

lemma solPoint_eq (S day latRad lon : ℝ) :
    solPoint S day latRad lon =
      if S * (Real.sin latRad * Real.sin (dec day) -
          Real.cos latRad * Real.cos (dec day) * Real.cos (hourAngle day lon)) *
          rho day ^ (-2 : ℤ) < 0 then 0
      else S * (Real.sin latRad * Real.sin (dec day) -
          Real.cos latRad * Real.cos (dec day) * Real.cos (hourAngle day lon)) *
          rho day ^ (-2 : ℤ) := rfl

lemma solPoint_nonneg (S day latRad lon : ℝ) : 0 ≤ solPoint S day latRad lon := by
  rw [solPoint_eq]
  split_ifs with h
  · exact le_refl 0
  · exact le_of_not_lt h

lemma solPoint_le_bound (S day latRad lon : ℝ) (hS : 0 ≤ S) :
    solPoint S day latRad lon ≤ S / (1 - ecc) ^ 2 := by
  have hecc : (0 : ℝ) < 1 - ecc := by
    unfold ecc
    norm_num
  have hrpos := rho_pos day
  have hrle := one_sub_ecc_le_rho day
  have hA := trig_combo_le_one latRad (dec day)
    (Real.cos (hourAngle day lon)) (Real.abs_cos_le_one _)
  have hrinv : ((rho day) ^ 2)⁻¹ ≤ ((1 - ecc) ^ 2)⁻¹ := by
    apply inv_anti₀ (by positivity)
    nlinarith
  have hrinv0 : (0 : ℝ) ≤ ((rho day) ^ 2)⁻¹ := by positivity
  rw [solPoint_eq]
  split_ifs with h
  · positivity
  · rw [zpow_neg_two_eq]
    calc S * (Real.sin latRad * Real.sin (dec day) -
          Real.cos latRad * Real.cos (dec day) * Real.cos (hourAngle day lon)) *
          ((rho day) ^ 2)⁻¹
        ≤ S * 1 * ((rho day) ^ 2)⁻¹ := by
          apply mul_le_mul_of_nonneg_right _ hrinv0
          exact mul_le_mul_of_nonneg_left hA hS
      _ = S * ((rho day) ^ 2)⁻¹ := by ring
      _ ≤ S * ((1 - ecc) ^ 2)⁻¹ := mul_le_mul_of_nonneg_left hrinv hS
      _ = S / (1 - ecc) ^ 2 := by rw [div_eq_mul_inv]

/-- C2 (amended): for a nonnegative scaling constant `S`, every element of
a successful `insolation` result lies in `[0, S / (1 - ecc)^2]`: the
night-side clamp makes it nonnegative, and the distance factor
`rho ** -2.` inflates the scale by at most `(1 - ecc)^-2` (about 3.4 %),
so `S` itself is not an upper bound but `S / (1 - ecc)^2` is. -/
theorem c2_insolation_bounds (dates : List Date) (lat lon : RArr) (S : ℝ)
    (out : List (List (List ℝ))) (hS : 0 ≤ S)
    (hok : insolation dates lat lon S = .ok out) :
    ∀ plane ∈ out, ∀ row ∈ plane, ∀ x ∈ row,
      0 ≤ x ∧ x ≤ S / (1 - ecc) ^ 2 := by
  rcases lat with la | la <;> rcases lon with lo | lo
  case one.one =>
    have h : (dates.map fun d => la.map fun phi => lo.map fun theta =>
        solPoint S (day_of_year d) (phi * Real.pi / 180) theta) = out := by
      injection hok
    subst h
    intro plane hp row hr x hx
    rw [List.mem_map] at hp
    obtain ⟨d, _, rfl⟩ := hp
    rw [List.mem_map] at hr
    obtain ⟨phi, _, rfl⟩ := hr
    rw [List.mem_map] at hx
    obtain ⟨theta, _, rfl⟩ := hx
    exact ⟨solPoint_nonneg .., solPoint_le_bound _ _ _ _ hS⟩
  case one.two =>
    exact absurd hok (by unfold insolation; simp)
  case two.one =>
    exact absurd hok (by unfold insolation; simp)
  case two.two =>
    by_cases hsh : la.length = lo.length ∧
        (la.headD []).length = (lo.headD []).length
    · have hred : insolation dates (.two la) (.two lo) S
          = .ok (dates.map fun d => (la.zip lo).map fun rows =>
              (rows.1.zip rows.2).map fun p =>
                solPoint S (day_of_year d) (p.1 * Real.pi / 180) p.2) := by
        show (if la.length = lo.length ∧
            (la.headD []).length = (lo.headD []).length then _ else _) = _
        rw [if_pos hsh]
      rw [hred] at hok
      have h : (dates.map fun d => (la.zip lo).map fun rows =>
          (rows.1.zip rows.2).map fun p =>
            solPoint S (day_of_year d) (p.1 * Real.pi / 180) p.2) = out := by
        injection hok
      subst h
      intro plane hp row hr x hx
      rw [List.mem_map] at hp
      obtain ⟨d, _, rfl⟩ := hp
      rw [List.mem_map] at hr
      obtain ⟨rows, _, rfl⟩ := hr
      rw [List.mem_map] at hx
      obtain ⟨p, _, rfl⟩ := hx
      exact ⟨solPoint_nonneg .., solPoint_le_bound _ _ _ _ hS⟩
    · have hred : insolation dates (.two la) (.two lo) S
          = .error "shape mismatch between lat and lon" := by
        show (if la.length = lo.length ∧
            (la.headD []).length = (lo.headD []).length then _ else _) = _
        rw [if_neg hsh]
      rw [hred] at hok
      exact absurd hok (by simp)

/-- Witness for the amended C2 at a concrete input: one date, the equator
at longitude zero, S = 1. -/
theorem c2_insolation_bounds_witness :
    (0 : ℝ) ≤ 1 ∧
    ∀ plane ∈ [[[solPoint 1 (day_of_year ⟨2000, 0⟩) (0 * Real.pi / 180) 0]]],
      ∀ row ∈ plane, ∀ x ∈ row, 0 ≤ x ∧ x ≤ 1 / (1 - ecc) ^ 2 :=
  ⟨by norm_num,
    c2_insolation_bounds [⟨2000, 0⟩] (.one [0]) (.one [0]) 1
      [[[solPoint 1 (day_of_year ⟨2000, 0⟩) (0 * Real.pi / 180) 0]]]
      (by norm_num) rfl⟩

/-! ### C2 counterexample: interval bounds along the insolation formula
at 1995-01-03 00:00 (day 2), latitude -23 degrees, longitude 180. -/

lemma pi_lb : (3.141592 : ℝ) ≤ Real.pi := le_of_lt Real.pi_gt_d6

lemma pi_ub : Real.pi ≤ 3.141593 := le_of_lt Real.pi_lt_d6

lemma cos_interval (x lo hi : ℝ) (h0 : 0 ≤ lo) (h1 : lo ≤ x) (h2 : x ≤ hi)
    (h3 : hi ≤ 1) :
    1 - hi ^ 2 / 2 - hi ^ 4 * (5 / 96) ≤ Real.cos x ∧
      Real.cos x ≤ 1 - lo ^ 2 / 2 + hi ^ 4 * (5 / 96) := by
  have hx : |x| ≤ 1 := by
    rw [abs_le]
    constructor <;> nlinarith
  have hb := Real.cos_bound hx
  rw [abs_le] at hb
  have habs : |x| = x := abs_of_nonneg (le_trans h0 h1)
  rw [habs] at hb
  have hx0 : 0 ≤ x := le_trans h0 h1
  have hx2 : x ^ 2 ≤ hi ^ 2 := by nlinarith
  have hx4 : x ^ 4 ≤ hi ^ 4 := by nlinarith
  have hlo2 : lo ^ 2 ≤ x ^ 2 := by nlinarith
  constructor <;> nlinarith [hb.1, hb.2]

lemma sin_interval (x lo hi : ℝ) (h0 : 0 ≤ lo) (h1 : lo ≤ x) (h2 : x ≤ hi)
    (h3 : hi ≤ 1) :
    lo - lo ^ 3 / 6 - hi ^ 4 * (5 / 96) ≤ Real.sin x ∧
      Real.sin x ≤ hi - hi ^ 3 / 6 + hi ^ 4 * (5 / 96) := by
  have hx : |x| ≤ 1 := by
    rw [abs_le]
    constructor <;> nlinarith
  have hb := Real.sin_bound hx
  rw [abs_le] at hb
  have habs : |x| = x := abs_of_nonneg (le_trans h0 h1)
  rw [habs] at hb
  have hx0 : 0 ≤ x := le_trans h0 h1
  have hx2 : x ^ 2 ≤ hi ^ 2 := by nlinarith
  have hx4 : x ^ 4 ≤ hi ^ 4 := by nlinarith [sq_nonneg x, sq_nonneg hi]
  have hmono1 : lo - lo ^ 3 / 6 ≤ x - x ^ 3 / 6 := by
    nlinarith [mul_nonneg (sub_nonneg.mpr h1)
      (show (0 : ℝ) ≤ 6 - (x ^ 2 + x * lo + lo ^ 2) by nlinarith)]
  have hmono2 : x - x ^ 3 / 6 ≤ hi - hi ^ 3 / 6 := by
    nlinarith [mul_nonneg (sub_nonneg.mpr h2)
      (show (0 : ℝ) ≤ 6 - (hi ^ 2 + hi * x + x ^ 2) by nlinarith)]
  constructor <;> nlinarith [hb.1, hb.2]

lemma beta_bounds : (0.9998602 : ℝ) ≤ beta ∧ beta ≤ 0.9998604 := by
  unfold beta ecc
  constructor
  · rw [show (0.9998602 : ℝ) = Real.sqrt (0.9998602 ^ 2) from
      (Real.sqrt_sq (by norm_num)).symm]
    exact Real.sqrt_le_sqrt (by norm_num)
  · rw [show (0.9998604 : ℝ) = Real.sqrt (0.9998604 ^ 2) from
      (Real.sqrt_sq (by norm_num)).symm]
    exact Real.sqrt_le_sqrt (by norm_num)

lemma sin_om_eq : Real.sin om = -Real.cos (127 * Real.pi / 1800) := by
  have h : om = (127 * Real.pi / 1800 + Real.pi / 2) + Real.pi := by
    unfold om
    ring
  rw [h, Real.sin_add_pi, Real.sin_add_pi_div_two]

lemma sin_om_bounds :
    (-0.9755599 : ℝ) ≤ Real.sin om ∧ Real.sin om ≤ -0.9753083 := by
  have hc := cos_interval (127 * Real.pi / 1800)
    (127 * 3.141592 / 1800) (127 * 3.141593 / 1800)
    (by norm_num) (by linarith [pi_lb]) (by linarith [pi_ub]) (by norm_num)
  rw [sin_om_eq]
  constructor <;> nlinarith [hc.1, hc.2]

lemma lambda_m0_bounds :
    (-0.0326108 : ℝ) ≤ lambda_m0 ∧ lambda_m0 ≤ -0.0326022 := by
  obtain ⟨hb1, hb2⟩ := beta_bounds
  obtain ⟨hs1, hs2⟩ := sin_om_bounds
  have hp1 : (0.0334276 : ℝ) ≤ ecc * (1 + beta) := by
    unfold ecc
    nlinarith
  have hp2 : ecc * (1 + beta) ≤ 0.0334277 := by
    unfold ecc
    nlinarith
  have hA : 0 ≤ (ecc * (1 + beta) - 0.0334276) *
      (Real.sin om - (-0.9755599)) := mul_nonneg (by linarith) (by linarith)
  have hB : 0 ≤ (0.0334277 - ecc * (1 + beta)) *
      (Real.sin om - (-0.9755599)) := mul_nonneg (by linarith) (by linarith)
  have hC : 0 ≤ (ecc * (1 + beta) - 0.0334276) *
      ((-0.9753083) - Real.sin om) := mul_nonneg (by linarith) (by linarith)
  have hD : 0 ≤ (0.0334277 - ecc * (1 + beta)) *
      ((-0.9753083) - Real.sin om) := mul_nonneg (by linarith) (by linarith)
  unfold lambda_m0
  constructor <;> nlinarith [hA, hB, hC, hD]

lemma lambda_m_two_sub_om :
    lambda_m 2 - om = (lambda_m0 - 91 * Real.pi / 131400) - 2 * Real.pi := by
  unfold lambda_m om
  ring

lemma s_bounds :
    (-0.0347796 : ℝ) ≤ Real.sin (lambda_m 2 - om) ∧
      Real.sin (lambda_m 2 - om) ≤ -0.0347707 := by
  obtain ⟨hl1, hl2⟩ := lambda_m0_bounds
  have hu1 : (0.0021756 : ℝ) ≤ 91 * Real.pi / 131400 := by linarith [pi_lb]
  have hu2 : 91 * Real.pi / 131400 ≤ 0.0021757 := by linarith [pi_ub]
  rw [lambda_m_two_sub_om, Real.sin_sub_two_pi,
    show lambda_m0 - 91 * Real.pi / 131400
      = -(91 * Real.pi / 131400 - lambda_m0) by ring, Real.sin_neg]
  have hs := sin_interval (91 * Real.pi / 131400 - lambda_m0)
    0.0347778 0.0347865
    (by norm_num) (by linarith) (by linarith) (by norm_num)
  constructor <;> nlinarith [hs.1, hs.2]

lemma lambda_plus_half_pi :
    lambda_ 2 + Real.pi / 2
      = 51 * Real.pi / 730 + lambda_m0
        + 2 * ecc * Real.sin (lambda_m 2 - om) := by
  unfold lambda_ lambda_m om
  ring

lemma twoeccs_bounds :
    (-0.0011627 : ℝ) ≤ 2 * ecc * Real.sin (lambda_m 2 - om) ∧
      2 * ecc * Real.sin (lambda_m 2 - om) ≤ -0.0011623 := by
  obtain ⟨hs1, hs2⟩ := s_bounds
  unfold ecc
  constructor <;> nlinarith

lemma sin_lambda_bounds :
    (-0.9828184 : ℝ) ≤ Real.sin (lambda_ 2) ∧
      Real.sin (lambda_ 2) ≤ -0.9826926 := by
  obtain ⟨hl1, hl2⟩ := lambda_m0_bounds
  obtain ⟨ht1, ht2⟩ := twoeccs_bounds
  have hw1 : (0.1857075 : ℝ) ≤ lambda_ 2 + Real.pi / 2 := by
    rw [lambda_plus_half_pi]
    linarith [pi_lb]
  have hw2 : lambda_ 2 + Real.pi / 2 ≤ 0.1857167 := by
    rw [lambda_plus_half_pi]
    linarith [pi_ub]
  have hc := cos_interval (lambda_ 2 + Real.pi / 2)
    0.1857075 0.1857167 (by norm_num) hw1 hw2 (by norm_num)
  rw [show Real.sin (lambda_ 2) = -Real.cos (lambda_ 2 + Real.pi / 2) by
    rw [Real.cos_add_pi_div_two, neg_neg]]
  constructor <;> nlinarith [hc.1, hc.2]

lemma eps_eq : eps = 234441 * Real.pi / 1800000 := by
  unfold eps
  ring

lemma sin_eps_bounds :
    (0.3962987 : ℝ) ≤ Real.sin eps ∧ Real.sin eps ≤ 0.3992191 := by
  have hs := sin_interval eps
    (234441 * 3.141592 / 1800000) (234441 * 3.141593 / 1800000)
    (by norm_num) (by rw [eps_eq]; linarith [pi_lb])
    (by rw [eps_eq]; linarith [pi_ub]) (by norm_num)
  constructor <;> nlinarith [hs.1, hs.2]

lemma x_bounds :
    (-0.39236 : ℝ) ≤ Real.sin eps * Real.sin (lambda_ 2) ∧
      Real.sin eps * Real.sin (lambda_ 2) ≤ -0.3894396 := by
  obtain ⟨he1, he2⟩ := sin_eps_bounds
  obtain ⟨hl1, hl2⟩ := sin_lambda_bounds
  have hA : 0 ≤ (Real.sin eps - 0.3962987) *
      (Real.sin (lambda_ 2) - (-0.9828184)) :=
    mul_nonneg (by linarith) (by linarith)
  have hB : 0 ≤ (0.3992191 - Real.sin eps) *
      (Real.sin (lambda_ 2) - (-0.9828184)) :=
    mul_nonneg (by linarith) (by linarith)
  have hC : 0 ≤ (Real.sin eps - 0.3962987) *
      ((-0.9826926) - Real.sin (lambda_ 2)) :=
    mul_nonneg (by linarith) (by linarith)
  have hD : 0 ≤ (0.3992191 - Real.sin eps) *
      ((-0.9826926) - Real.sin (lambda_ 2)) :=
    mul_nonneg (by linarith) (by linarith)
  constructor <;> nlinarith [hA, hB, hC, hD]

lemma sqrt_one_sub_x_sq_bounds :
    (0.9198117 : ℝ)
        ≤ Real.sqrt (1 - (Real.sin eps * Real.sin (lambda_ 2)) ^ 2) ∧
      Real.sqrt (1 - (Real.sin eps * Real.sin (lambda_ 2)) ^ 2)
        ≤ 0.9210522 := by
  obtain ⟨hx1, hx2⟩ := x_bounds
  have hsq1 : 0 ≤ (Real.sin eps * Real.sin (lambda_ 2) + 0.39236) *
      (0.39236 - Real.sin eps * Real.sin (lambda_ 2)) :=
    mul_nonneg (by linarith) (by linarith)
  have hsq2 : 0 ≤ (-(Real.sin eps * Real.sin (lambda_ 2)) - 0.3894396) *
      (-(Real.sin eps * Real.sin (lambda_ 2)) + 0.3894396) :=
    mul_nonneg (by linarith) (by linarith)
  have h1 : (0.9198117 : ℝ) ^ 2
      ≤ 1 - (Real.sin eps * Real.sin (lambda_ 2)) ^ 2 := by nlinarith
  have h2 : 1 - (Real.sin eps * Real.sin (lambda_ 2)) ^ 2
      ≤ (0.9210522 : ℝ) ^ 2 := by nlinarith
  constructor
  · rw [show (0.9198117 : ℝ) = Real.sqrt (0.9198117 ^ 2) from
      (Real.sqrt_sq (by norm_num)).symm]
    exact Real.sqrt_le_sqrt h1
  · rw [show (0.9210522 : ℝ) = Real.sqrt (0.9210522 ^ 2) from
      (Real.sqrt_sq (by norm_num)).symm]
    exact Real.sqrt_le_sqrt h2

lemma v23_bounds :
    ((0.3892920 : ℝ) ≤ Real.sin (23 * Real.pi / 180) ∧
      Real.sin (23 * Real.pi / 180) ≤ 0.3919971) ∧
    ((0.9180762 : ℝ) ≤ Real.cos (23 * Real.pi / 180) ∧
      Real.cos (23 * Real.pi / 180) ≤ 0.9207812) := by
  have h1 : (23 : ℝ) * 3.141592 / 180 ≤ 23 * Real.pi / 180 := by
    linarith [pi_lb]
  have h2 : (23 : ℝ) * Real.pi / 180 ≤ 23 * 3.141593 / 180 := by
    linarith [pi_ub]
  have hs := sin_interval (23 * Real.pi / 180)
    (23 * 3.141592 / 180) (23 * 3.141593 / 180)
    (by norm_num) h1 h2 (by norm_num)
  have hc := cos_interval (23 * Real.pi / 180)
    (23 * 3.141592 / 180) (23 * 3.141593 / 180)
    (by norm_num) h1 h2 (by norm_num)
  exact ⟨⟨by nlinarith [hs.1], by nlinarith [hs.2]⟩,
    ⟨by nlinarith [hc.1], by nlinarith [hc.2]⟩⟩

lemma lambda_sub_om_eq :
    lambda_ 2 - om
      = (lambda_m0 + 2 * ecc * Real.sin (lambda_m 2 - om)
          - 91 * Real.pi / 131400) - 2 * Real.pi := by
  unfold lambda_ lambda_m om
  ring

lemma cos_vp_bounds :
    (0.9993537 : ℝ) ≤ Real.cos (lambda_ 2 - om) ∧
      Real.cos (lambda_ 2 - om) ≤ 0.9993543 := by
  obtain ⟨hl1, hl2⟩ := lambda_m0_bounds
  obtain ⟨ht1, ht2⟩ := twoeccs_bounds
  have hu1 : (0.0021756 : ℝ) ≤ 91 * Real.pi / 131400 := by linarith [pi_lb]
  have hu2 : 91 * Real.pi / 131400 ≤ 0.0021757 := by linarith [pi_ub]
  rw [lambda_sub_om_eq, Real.cos_sub_two_pi,
    show lambda_m0 + 2 * ecc * Real.sin (lambda_m 2 - om)
        - 91 * Real.pi / 131400
      = -(91 * Real.pi / 131400 - 2 * ecc * Real.sin (lambda_m 2 - om)
          - lambda_m0) by ring, Real.cos_neg]
  have hc := cos_interval
    (91 * Real.pi / 131400 - 2 * ecc * Real.sin (lambda_m 2 - om)
      - lambda_m0)
    0.0359401 0.0359492
    (by norm_num) (by linarith) (by linarith) (by norm_num)
  constructor <;> nlinarith [hc.1, hc.2]

lemma rho_jan3_ub : rho 2 ≤ 0.9832956 := by
  obtain ⟨hc1, hc2⟩ := cos_vp_bounds
  unfold rho
  rw [div_le_iff₀ (rho_denom_pos 2)]
  unfold ecc
  nlinarith

lemma cos_hour_angle : Real.cos (hourAngle 2 180) = -1 := by
  rw [show hourAngle 2 180 = (Real.pi + 2 * Real.pi) + 2 * Real.pi by
    unfold hourAngle; ring, Real.cos_add_two_pi, Real.cos_add_two_pi,
    Real.cos_pi]

lemma sin_dec_eq :
    Real.sin (dec 2) = Real.sin eps * Real.sin (lambda_ 2) := by
  unfold dec
  exact Real.sin_arcsin (by nlinarith [x_bounds.1]) (by nlinarith [x_bounds.2])

lemma cos_dec_eq :
    Real.cos (dec 2)
      = Real.sqrt (1 - (Real.sin eps * Real.sin (lambda_ 2)) ^ 2) := by
  unfold dec
  exact Real.cos_arcsin _

lemma solPoint_jan3_gt_one : 1 < solPoint 1 2 (-23 * Real.pi / 180) 180 := by
  obtain ⟨hx1, hx2⟩ := x_bounds
  obtain ⟨hq1, hq2⟩ := sqrt_one_sub_x_sq_bounds
  obtain ⟨⟨hsv1, hsv2⟩, hcv1, hcv2⟩ := v23_bounds
  have hrho := rho_jan3_ub
  have hrpos := rho_pos 2
  have hsin : Real.sin (-23 * Real.pi / 180)
      = -Real.sin (23 * Real.pi / 180) := by
    rw [show (-23 : ℝ) * Real.pi / 180 = -(23 * Real.pi / 180) by ring,
      Real.sin_neg]
  have hcos : Real.cos (-23 * Real.pi / 180)
      = Real.cos (23 * Real.pi / 180) := by
    rw [show (-23 : ℝ) * Real.pi / 180 = -(23 * Real.pi / 180) by ring,
      Real.cos_neg]
  have hA : (0.996062 : ℝ) ≤
      Real.sin (-23 * Real.pi / 180) * Real.sin (dec 2) -
        Real.cos (-23 * Real.pi / 180) * Real.cos (dec 2) *
          Real.cos (hourAngle 2 180) := by
    rw [hsin, hcos, cos_hour_angle, sin_dec_eq, cos_dec_eq]
    have hP1 : 0 ≤ (Real.sin (23 * Real.pi / 180) - 0.3892920) *
        (-(Real.sin eps * Real.sin (lambda_ 2)) - 0.3894396) :=
      mul_nonneg (by linarith) (by linarith)
    have hP2 : 0 ≤ (Real.cos (23 * Real.pi / 180) - 0.9180762) *
        (Real.sqrt (1 - (Real.sin eps * Real.sin (lambda_ 2)) ^ 2)
          - 0.9198117) :=
      mul_nonneg (by linarith) (by linarith)
    nlinarith [hP1, hP2]
  have hz : rho 2 ^ (-2 : ℤ) = ((rho 2) ^ 2)⁻¹ := zpow_neg_two_eq _
  have hrinv : ((0.9832956 : ℝ) ^ 2)⁻¹ ≤ ((rho 2) ^ 2)⁻¹ := by
    apply inv_anti₀ (by positivity)
    nlinarith
  have hrinv0 : (0 : ℝ) < ((rho 2) ^ 2)⁻¹ := by positivity
  have hfin : 1 < 1 * (Real.sin (-23 * Real.pi / 180) * Real.sin (dec 2) -
      Real.cos (-23 * Real.pi / 180) * Real.cos (dec 2) *
        Real.cos (hourAngle 2 180)) * rho 2 ^ (-2 : ℤ) := by
    rw [hz]
    calc (1 : ℝ) < 0.996062 * ((0.9832956 : ℝ) ^ 2)⁻¹ := by norm_num
      _ ≤ 0.996062 * ((rho 2) ^ 2)⁻¹ := by nlinarith [hrinv]
      _ ≤ (Real.sin (-23 * Real.pi / 180) * Real.sin (dec 2) -
            Real.cos (-23 * Real.pi / 180) * Real.cos (dec 2) *
              Real.cos (hourAngle 2 180)) * ((rho 2) ^ 2)⁻¹ :=
        mul_le_mul_of_nonneg_right hA (le_of_lt hrinv0)
      _ = 1 * (Real.sin (-23 * Real.pi / 180) * Real.sin (dec 2) -
            Real.cos (-23 * Real.pi / 180) * Real.cos (dec 2) *
              Real.cos (hourAngle 2 180)) * ((rho 2) ^ 2)⁻¹ := by ring
  rw [solPoint_eq, if_neg (by linarith)]
  exact hfin

/-- C2 (counterexample): at 1995-01-03 00:00 (close to perihelion, where
`rho < 1` makes `rho ** -2.` exceed 1), latitude -23 degrees and
longitude 180 (local solar midday), with S = 1, `insolation` returns an
element strictly greater than S: the output is not bounded by the scaling
constant. -/
theorem c2_insolation_exceeds_scale :
    ∃ out, insolation [⟨1995, 172800⟩] (.one [-23]) (.one [180]) 1
        = .ok out ∧
      ∃ plane ∈ out, ∃ row ∈ plane, ∃ x ∈ row, 1 < x := by
  refine ⟨[[[solPoint 1 (day_of_year ⟨1995, 172800⟩)
    (-23 * Real.pi / 180) 180]]], rfl, ?_⟩
  refine ⟨_, List.mem_singleton.mpr rfl, _, List.mem_singleton.mpr rfl, _,
    List.mem_singleton.mpr rfl, ?_⟩
  have hday : day_of_year ⟨1995, 172800⟩ = 2 := by
    unfold day_of_year
    norm_num
  rw [hday]
  exact solPoint_jan3_gt_one

end DLWP
